import Mathlib

/-!
Shallow embedding of the HTTP request/response core of finance-go
(file finance.go): backend registry, request builder, yahoo crumb
handshake, call executor and the remote-error type, together with
theorems settling the specification claims about them.
-/

namespace FinanceGo

/-! ### Backend identifiers and configuration (finance.go lines 48-99) -/

/-- SupportedBackend is a string-based enumeration in the source. -/
abbrev SupportedBackend := String

/-- YFinBackend constant, line 50. -/
def YFinBackend : SupportedBackend := "yahoo"

/-- BATSBackend constant, line 52. -/
def BATSBackend : SupportedBackend := "bats"

/-- yFinURL constant, line 60. -/
def yFinURL : String := "https://query2.finance.yahoo.com"

/-- batsURL constant, line 61. -/
def batsURL : String := ""

/-- Reference identity of the shared package-level http.Client (line 80).
Pointers are modelled by numeric identities; the shared client is 0. -/
def httpClientRef : Nat := 0

/-- BackendConfiguration, lines 95-99.  The Go field Type is spelled
`type` here because `Type` is reserved in Lean; HTTPClient holds the
reference identity of the configured http.Client. -/
structure BackendConfiguration where
  type : SupportedBackend
  URL : String
  HTTPClient : Nat
deriving DecidableEq

/-! ### Query values and canonical encoding (net/url Values semantics)

A request query is modelled as the flattened list of key/value pairs in
the order url.Values.Query parses them.  url.Values.Encode emits the
pairs grouped by key with the keys in sorted byte order and, within one
key, the values in insertion order; on the flattened pair list this is
exactly a stable sort of the pairs by byte-wise key order. -/

abbrev QueryPairs := List (String × String)

/-- Byte-wise (code-point) strict lexicographic order on strings, the
order Go sort.Strings applies to the keys inside Values.Encode. -/
def charListLt : List Char → List Char → Bool
  | [], [] => false
  | [], _ :: _ => true
  | _ :: _, [] => false
  | a :: as, b :: bs =>
    if a.toNat < b.toNat then true
    else if b.toNat < a.toNat then false
    else charListLt as bs

/-- Key order between two query pairs. -/
def keyLt (p q : String × String) : Bool := charListLt p.1.data q.1.data

/-- Stable insertion of a pair into an already key-sorted pair list: the
pair goes in front of the first position whose key is not strictly
smaller, so earlier pairs with an equal key stay in front. -/
def insertPair (p : String × String) : QueryPairs → QueryPairs
  | [] => [p]
  | q :: qs => if keyLt q p then q :: insertPair p qs else p :: q :: qs

/-- Stable insertion sort of query pairs by key. -/
def sortPairs : QueryPairs → QueryPairs
  | [] => []
  | p :: ps => insertPair p (sortPairs ps)

/-- Model of url.Values.Encode on the flattened pair list: canonical
(sorted-by-key, stable) re-encoding of the query. -/
def encodeQuery (q : QueryPairs) : QueryPairs := sortPairs q

/-! ### Go error values

Go errors are classified by their dynamic type: construction errors
from http.NewRequest, transport errors from http.Client.Do, body-read
errors from ioutil.ReadAll, the package's own RemoteError,
json.Unmarshal decode errors, and the wrapping error produced by
fmt.Errorf with a context message. -/

inductive GoError where
  | construction (msg : String)
  | transport (msg : String)
  | readBody (msg : String)
  | remote (msg : String) (statusCode : Int) (body : String)
  | decode (msg : String)
  | wrapped (ctx : String) (e : GoError)
deriving DecidableEq

/-- Whether a Go error value is of dynamic type *RemoteError. -/
def GoError.isRemote : GoError → Bool
  | .remote _ _ _ => true
  | _ => false

/-! ### Requests and the request builder (finance.go lines 187-206) -/

/-- The parts of http.Request the core manipulates: the method, the URL
string built by NewRequest, and the parsed query pair list. -/
structure Request where
  method : String
  url : String
  query : QueryPairs
deriving DecidableEq

/-- Model of strings.HasPrefix(path, "/") from line 188, decided on the
character list of the string. -/
def startsWithSlash (s : String) : Bool := s.data.take 1 = ['/']

/-- HTTP token character per RFC 7230, as accepted by the net/http
method validation: letters, digits, and the specials listed by code
point: 33 bang, 35 hash, 36 dollar, 37 percent, 38 ampersand,
39 apostrophe, 42 star, 43 plus, 45 minus, 46 dot, 94 caret,
95 underscore, 96 grave accent, 124 bar, 126 tilde. -/
def isTokenChar (c : Char) : Bool :=
  c.isAlphanum ||
    [33, 35, 36, 37, 38, 39, 42, 43, 45, 46, 94, 95, 96, 124, 126].contains c.toNat

/-- Modelled from the spec: net/http.NewRequest (called at finance.go
line 194, outside this repository) rejects a method that is not a
nonempty HTTP token. -/
def validMethod (m : String) : Bool :=
  !m.data.isEmpty && m.data.all isTokenChar

/-- Split a character list at the first occurrence of the separator:
the part before it and the part after it with the separator dropped
(everything and an empty remainder when the separator is absent), as
the split helper of net/url does on the URL string. -/
def splitFirst (sep : Char) : List Char → List Char × List Char
  | [] => ([], [])
  | c :: rest =>
    if c = sep then ([], rest)
    else
      let r := splitFirst sep rest
      (c :: r.1, r.2)

/-- Hexadecimal digit character: a digit, a lowercase a to f (codes 97
to 102) or an uppercase A to F (codes 65 to 70). -/
def isHexChar (c : Char) : Bool :=
  c.isDigit || (97 ≤ c.toNat && c.toNat ≤ 102) || (65 ≤ c.toNat && c.toNat ≤ 70)

/-- Whether every percent sign in the character list is followed by two
hexadecimal digits, the escape validity net/url enforces. -/
def validEscapes : List Char → Bool
  | [] => true
  | c :: rest =>
    if c.toNat = 37 then
      match rest with
      | a :: b :: rest2 => isHexChar a && isHexChar b && validEscapes rest2
      | _ => false
    else validEscapes rest

/-- Modelled from the spec: net/url.Parse (reached through
net/http.NewRequest at finance.go line 194, outside this repository)
fails on a structurally invalid URL; the live failure modes modelled
here are an ASCII control character before the fragment part, and an
invalid percent escape in the pre-query part or in the fragment (query
escapes are decoded lazily, not at construction). -/
def validURL (u : String) : Bool :=
  let fsplit := splitFirst '#' u.data
  let qsplit := splitFirst '?' fsplit.1
  fsplit.1.all (fun c => 32 ≤ c.toNat && c.toNat ≠ 127)
    && validEscapes qsplit.1 && validEscapes fsplit.2

/-- NewRequest, lines 187-206: normalize the path to be absolute,
concatenate it onto the backend base URL, and hand the method and URL
to http.NewRequest, whose error (an empty method defaults to GET, an
invalid method or a URL that does not parse is rejected) is returned
to the caller, line 199. -/
def BackendConfiguration.NewRequest (s : BackendConfiguration) (method path : String) :
    Except GoError Request :=
  let p := if startsWithSlash path then path else "/" ++ path
  let fullURL := s.URL ++ p
  let m := if method = "" then "GET" else method
  if validMethod m then
    if validURL fullURL then
      Except.ok { method := m, url := fullURL, query := [] }
    else
      Except.error (GoError.construction "net/url: invalid URL")
  else
    Except.error (GoError.construction "net/http: invalid method")

/-- RemoteError, lines 316-320. -/
structure RemoteError where
  Msg : String
  StatusCode : Int
  Body : String
deriving DecidableEq

/-- RemoteError.Error, lines 322-324: fmt.Sprintf with the status code
and the message. -/
def RemoteError.Error (e : RemoteError) : String :=
  "status: " ++ toString e.StatusCode ++ ", detail: " ++ e.Msg

/-! ### The crumb handshake (finance.go lines 213-246)

Each of the two GETs either fails at the transport or yields a response
with a status code and a body-read outcome.  The fixed literal URLs make
http.NewRequest infallible, so those error branches are dead. -/

inductive StepOutcome where
  | transportErr (msg : String)
  | bodyReadErr (status : Int) (msg : String)
  | response (status : Int) (body : String)
deriving DecidableEq

/-- getYahooCrumb, lines 213-246: GET the web root (body read-and-
dropped through io.Copy, whose error the source discards, line 226),
then GET the crumb endpoint and return its body verbatim as the token.
Neither response status is inspected. -/
def getYahooCrumb (s1 s2 : StepOutcome) : Except GoError String :=
  match s1 with
  | .transportErr m => .error (.transport m)
  | .bodyReadErr _ _ | .response _ _ =>
    match s2 with
    | .transportErr m => .error (.transport m)
    | .bodyReadErr _ m => .error (.readBody m)
    | .response _ b => .ok b

/-! ### The call executor Do (finance.go lines 251-314) -/

/-- Outcome of s.HTTPClient.Do(req) followed by ioutil.ReadAll on the
response body: transport failure, a response whose body read fails, or
a response whose body is fully read. -/
inductive HTTPOutcome where
  | transportErr (msg : String)
  | bodyReadErr (status : Int) (msg : String)
  | success (status : Int) (body : String)
deriving DecidableEq

/-- Observable state after a Do call: the package-level yCrumb cache,
the query pairs on req.URL after Do rewrote (or kept) them, the
contents of the output destination v, and the returned error. -/
structure DoResult (α : Type) where
  yCrumb : String
  finalQuery : QueryPairs
  dest : Option α
  err : Option GoError
deriving DecidableEq

/-- Lines 259-265 of Do: when the cache is empty run getYahooCrumb,
otherwise keep the cached value.  The caller wraps the error. -/
def crumbFetch (yCrumb : String) (s1 s2 : StepOutcome) : Except GoError String :=
  if yCrumb = "" then getYahooCrumb s1 s2 else .ok yCrumb

/-- Lines 272-313 of Do: execute the request, classify the outcome.
newCrumb is the cache value after the crumb phase and q the query pairs
already rewritten onto the request. -/
def execRequest (newCrumb : String) (q : QueryPairs) (httpResult : HTTPOutcome)
    (unmarshal : String → Except String α) (v : Option α) : DoResult α :=
  match httpResult with
  | .transportErr m => ⟨newCrumb, q, v, some (.transport m)⟩
  | .bodyReadErr _ m => ⟨newCrumb, q, v, some (.readBody m)⟩
  | .success status body =>
    if status ≥ 400 then
      ⟨newCrumb, q, v, some (.remote "error response recieved from upstream api" status body)⟩
    else
      match v with
      | none => ⟨newCrumb, q, none, none⟩
      | some _ =>
        match unmarshal body with
        | .error m => ⟨newCrumb, q, v, some (.decode m)⟩
        | .ok a => ⟨newCrumb, q, some a, none⟩

/-- Do, lines 251-314.  For the yahoo backend the crumb cache is
ensured (running the handshake when empty, wrapping its error with the
"get yahoo crumb err" context and returning early), then the crumb is
added to the request query which is re-encoded canonically; afterwards
the request is executed.  The handshake transports, the request
outcome and json.Unmarshal are passed in as the environment. -/
def BackendConfiguration.Do (s : BackendConfiguration) (yCrumb : String)
    (s1 s2 : StepOutcome) (httpResult : HTTPOutcome)
    (unmarshal : String → Except String α) (req : Request) (v : Option α) :
    DoResult α :=
  if s.type = YFinBackend then
    match crumbFetch yCrumb s1 s2 with
    | .error e =>
      ⟨yCrumb, req.query, v, some (.wrapped "get yahoo crumb err" e)⟩
    | .ok c =>
      execRequest c (encodeQuery (req.query ++ [("crumb", c)])) httpResult unmarshal v
  else
    execRequest yCrumb req.query httpResult unmarshal v

/-! ### The backend registry (finance.go lines 89-92 and 128-155) -/

/-- The two registry slots of the package-level Backends value (the
mutex is part of the concurrency model below, not of the data). -/
structure Backends where
  YFin : Option BackendConfiguration
  Bats : Option BackendConfiguration
deriving DecidableEq

/-- The configuration GetBackend constructs and stores for the yahoo
slot on a miss (line 139). -/
def yahooDefaultCfg : BackendConfiguration :=
  { type := YFinBackend, URL := yFinURL, HTTPClient := httpClientRef }

/-- The configuration GetBackend constructs and stores for the bats
slot on a miss (line 150). -/
def batsDefaultCfg : BackendConfiguration :=
  { type := BATSBackend, URL := batsURL, HTTPClient := httpClientRef }

/-- GetBackend, lines 128-155, as a sequential function on the registry
state: a recognized identifier is looked up and lazily constructed on a
miss; anything else falls out of the switch and yields none. -/
def GetBackend (backend : SupportedBackend) (st : Backends) :
    Option BackendConfiguration × Backends :=
  if backend = YFinBackend then
    match st.YFin with
    | some ret => (some ret, st)
    | none => (some yahooDefaultCfg, { st with YFin := some yahooDefaultCfg })
  else if backend = BATSBackend then
    match st.Bats with
    | some ret => (some ret, st)
    | none => (some batsDefaultCfg, { st with Bats := some batsDefaultCfg })
  else
    (none, st)

/-! ### Concurrent model of GetBackend lazy initialization (yahoo branch)

Two callers race through lines 130-140.  The read-locked region
(RLock, read of backends.YFin into ret, RUnlock) is one atomic step and
the write-locked region (Lock, unconditional construct-and-store,
return under the deferred Unlock) is another; between them the other
thread may interleave freely.  The nil check on the local ret is a
thread-local step. -/

inductive TState where
  | start
  | checked (ret : Option BackendConfiguration)
  | done (result : BackendConfiguration)
deriving DecidableEq

/-- Global state of the race: the registry slot, both thread states and
how many times a configuration has been constructed and stored. -/
structure SysState where
  registryYFin : Option BackendConfiguration
  t1 : TState
  t2 : TState
  constructions : Nat
deriving DecidableEq

/-- One atomic step of a single thread executing the yahoo branch of
GetBackend.  Note the write-locked region stores unconditionally: the
source has no re-check of backends.YFin after taking the write lock. -/
def threadStep (reg : Option BackendConfiguration) (t : TState) (cnt : Nat) :
    Option BackendConfiguration × TState × Nat :=
  match t with
  | .start => (reg, .checked reg, cnt)
  | .checked (some ret) => (reg, .done ret, cnt)
  | .checked none => (some yahooDefaultCfg, .done yahooDefaultCfg, cnt + 1)
  | .done r => (reg, .done r, cnt)

/-- Scheduler step: run one atomic step of thread 1 (true) or thread 2
(false). -/
def step (s : SysState) (who : Bool) : SysState :=
  if who then
    let r := threadStep s.registryYFin s.t1 s.constructions
    { s with registryYFin := r.1, t1 := r.2.1, constructions := r.2.2 }
  else
    let r := threadStep s.registryYFin s.t2 s.constructions
    { s with registryYFin := r.1, t2 := r.2.1, constructions := r.2.2 }

/-- Run a whole schedule of interleaved steps. -/
def run (sched : List Bool) (s : SysState) : SysState := sched.foldl step s

/-- Both threads about to resolve the yahoo backend on a fresh
registry. -/
def initState : SysState :=
  { registryYFin := none, t1 := .start, t2 := .start, constructions := 0 }

/-- Thread-local invariant of the race: any configuration a thread has
read or returned is the default one. -/
def TOk : TState → Prop
  | .start => True
  | .checked none => True
  | .checked (some c) => c = yahooDefaultCfg
  | .done c => c = yahooDefaultCfg

/-- Global invariant of the race: the registry slot holds nothing or
the default configuration, and both threads satisfy TOk. -/
def Inv (s : SysState) : Prop :=
  (s.registryYFin = none ∨ s.registryYFin = some yahooDefaultCfg) ∧ TOk s.t1 ∧ TOk s.t2

/-! ### Concrete fixtures for the witness theorems -/

/-- YQuotePath constant, line 44. -/
def YQuotePath : String := "/v7/finance/quote"

/-- Sample json.Unmarshal model used by the concrete witnesses: the
body "[1]" decodes to 1, anything else is a json syntax error. -/
def unmarshalNat : String → Except String Nat :=
  fun body => if body = "[1]" then Except.ok 1 else Except.error "invalid character"

/-- Sample request used by the concrete witnesses. -/
def req0 : Request :=
  { method := "GET", url := yFinURL ++ YQuotePath, query := [("symbols", "AAPL")] }

/-- The request a successful witness run of NewRequest produces. -/
def reqQuote : Request :=
  { method := "GET", url := yFinURL ++ "/v7/finance/quote", query := [] }

/-! ### Helper lemmas -/

theorem insertPair_perm (p : String × String) (l : QueryPairs) :
    List.Perm (insertPair p l) (p :: l) := by
  induction l with
  | nil => exact List.Perm.refl _
  | cons q qs ih =>
    simp only [insertPair]
    split
    · exact (ih.cons q).trans (List.Perm.swap p q qs)
    · exact List.Perm.refl _

theorem sortPairs_perm (l : QueryPairs) : List.Perm (sortPairs l) l := by
  induction l with
  | nil => exact List.Perm.refl _
  | cons p ps ih => exact (insertPair_perm p (sortPairs ps)).trans (ih.cons p)

theorem encodeQuery_coe (l : QueryPairs) :
    ((encodeQuery l : QueryPairs) : Multiset (String × String))
      = (l : Multiset (String × String)) :=
  Quot.sound (sortPairs_perm l)

theorem execRequest_yCrumb {α : Type} (c : String) (q : QueryPairs) (h : HTTPOutcome)
    (u : String → Except String α) (v : Option α) :
    (execRequest c q h u v).yCrumb = c := by
  cases h with
  | transportErr m => rfl
  | bodyReadErr st m => rfl
  | success st body =>
    simp only [execRequest]
    split
    · rfl
    · cases v with
      | none => rfl
      | some a =>
        cases hub : u body with
        | error m => simp [hub]
        | ok x => simp [hub]

theorem execRequest_finalQuery {α : Type} (c : String) (q : QueryPairs) (h : HTTPOutcome)
    (u : String → Except String α) (v : Option α) :
    (execRequest c q h u v).finalQuery = q := by
  cases h with
  | transportErr m => rfl
  | bodyReadErr st m => rfl
  | success st body =>
    simp only [execRequest]
    split
    · rfl
    · cases v with
      | none => rfl
      | some a =>
        cases hub : u body with
        | error m => simp [hub]
        | ok x => simp [hub]

theorem Do_eq_execRequest {α : Type} (s : BackendConfiguration) (y : String)
    (s1 s2 : StepOutcome) (h : HTTPOutcome)
    (req : Request) (v : Option α)
    (hexec : s.type = YFinBackend → ∃ c, crumbFetch y s1 s2 = Except.ok c) :
    ∃ c q, ∀ u2 : String → Except String α,
        s.Do y s1 s2 h u2 req v = execRequest c q h u2 v := by
  by_cases hs : s.type = YFinBackend
  · obtain ⟨c, hc⟩ := hexec hs
    exact ⟨c, encodeQuery (req.query ++ [("crumb", c)]),
      fun u2 => by simp [BackendConfiguration.Do, hs, hc]⟩
  · exact ⟨y, req.query, fun u2 => by simp [BackendConfiguration.Do, hs]⟩

theorem inv_threadStep (reg : Option BackendConfiguration) (t : TState) (cnt : Nat)
    (hreg : reg = none ∨ reg = some yahooDefaultCfg) (ht : TOk t) :
    ((threadStep reg t cnt).1 = none ∨ (threadStep reg t cnt).1 = some yahooDefaultCfg)
    ∧ TOk (threadStep reg t cnt).2.1 := by
  cases t with
  | start =>
    refine ⟨hreg, ?_⟩
    cases hreg with
    | inl h => simp [threadStep, h, TOk]
    | inr h => simp [threadStep, h, TOk]
  | checked ret =>
    cases ret with
    | none => exact ⟨Or.inr rfl, rfl⟩
    | some c => exact ⟨hreg, ht⟩
  | done r => exact ⟨hreg, ht⟩

theorem inv_step (s : SysState) (w : Bool) (h : Inv s) : Inv (step s w) := by
  obtain ⟨hreg, h1, h2⟩ := h
  cases w with
  | true =>
    have hts := inv_threadStep s.registryYFin s.t1 s.constructions hreg h1
    exact ⟨hts.1, hts.2, h2⟩
  | false =>
    have hts := inv_threadStep s.registryYFin s.t2 s.constructions hreg h2
    exact ⟨hts.1, h1, hts.2⟩

theorem inv_run (sched : List Bool) (s : SysState) (h : Inv s) : Inv (run sched s) := by
  induction sched generalizing s with
  | nil => exact h
  | cons w ws ih => exact ih (step s w) (inv_step s w h)

/-! ### Claim theorems -/

/-- C1 counterexample: both handshake GETs come back with HTTP status
500, a non-2xx status, yet getYahooCrumb returns the second body as the
token instead of aborting with an error: the source never inspects the
status codes. -/
theorem getYahooCrumb_non2xx_counterexample :
    getYahooCrumb (StepOutcome.response 500 "error page")
        (StepOutcome.response 500 "EuOTWz3") = Except.ok "EuOTWz3"
    ∧ ¬ (200 ≤ (500 : Int) ∧ (500 : Int) < 300) := by
  constructor
  · rfl
  · decide

/-- C1 (amended): getYahooCrumb aborts with an error exactly when one
of the two GETs suffers a transport error or the second body read
fails; the HTTP status codes are never inspected, so a fully read
second body is returned as the token whatever the statuses were. -/
theorem getYahooCrumb_error_cases (s1 s2 : StepOutcome) :
    (∀ m, s1 = StepOutcome.transportErr m →
        getYahooCrumb s1 s2 = Except.error (GoError.transport m))
    ∧ ((∀ m, s1 ≠ StepOutcome.transportErr m) →
        (∀ m, s2 = StepOutcome.transportErr m →
            getYahooCrumb s1 s2 = Except.error (GoError.transport m))
        ∧ (∀ st m, s2 = StepOutcome.bodyReadErr st m →
            getYahooCrumb s1 s2 = Except.error (GoError.readBody m))
        ∧ (∀ st b, s2 = StepOutcome.response st b →
            getYahooCrumb s1 s2 = Except.ok b)) := by
  cases s1 <;> cases s2 <;> simp [getYahooCrumb]

/-- C1 witness: a transport failure on the first GET aborts the
handshake with that transport error. -/
theorem getYahooCrumb_error_cases_witness :
    getYahooCrumb (StepOutcome.transportErr "connection refused")
        (StepOutcome.response 200 "EuOTWz3")
      = Except.error (GoError.transport "connection refused") :=
  (getYahooCrumb_error_cases (StepOutcome.transportErr "connection refused")
    (StepOutcome.response 200 "EuOTWz3")).1 "connection refused" rfl

/-- C5: whenever NewRequest succeeds in building a request (the
construction error branch of lines 194-200 stays live for an invalid
method or a URL that does not parse), the URL it built is the backend
base URL concatenated with the path made absolute: base plus slash
plus path when the path lacks a leading slash, and base plus path with
no separator added when the path already starts with one. -/
theorem NewRequest_url (s : BackendConfiguration) (method path : String) (r : Request)
    (hr : s.NewRequest method path = Except.ok r) :
    (startsWithSlash path = false → r.url = s.URL ++ "/" ++ path)
    ∧ (startsWithSlash path = true → r.url = s.URL ++ path) := by
  constructor
  · intro h
    simp only [BackendConfiguration.NewRequest, h, Bool.false_eq_true, if_false] at hr
    repeat' split at hr
    all_goals
      first
        | exact Except.noConfusion hr
        | (injection hr with h2
           rw [← h2]
           exact (String.append_assoc s.URL "/" path).symm)
  · intro h
    simp only [BackendConfiguration.NewRequest, h, if_true] at hr
    repeat' split at hr
    all_goals
      first
        | exact Except.noConfusion hr
        | (injection hr with h2
           rw [← h2])

/-- C5 witness: on a concrete successful construction, a relative quote
path gets the separator inserted. -/
theorem NewRequest_url_witness :
    reqQuote.url = yahooDefaultCfg.URL ++ "/" ++ "v7/finance/quote" :=
  (NewRequest_url yahooDefaultCfg "GET" "v7/finance/quote" reqQuote rfl).1 (by decide)

/-- Liveness of the construction error branch: a method containing a
space is not an HTTP token, so NewRequest reports the construction
error instead of building a request. -/
theorem NewRequest_invalid_method :
    yahooDefaultCfg.NewRequest "GE T" "/v7/finance/quote"
      = Except.error (GoError.construction "net/http: invalid method") := rfl

/-- Liveness of the construction error branch: a control character in
the path makes the URL unparseable, so NewRequest reports the
construction error instead of building a request. -/
theorem NewRequest_invalid_url :
    yahooDefaultCfg.NewRequest "GET" "/a\nb"
      = Except.error (GoError.construction "net/url: invalid URL") := rfl

/-- C7 counterexample: under the schedule where both resolvers pass the
read-locked lookup before either takes the write lock, each of them
constructs and stores a configuration, so the initialization does run
twice: the source does not re-check the slot under the write lock. -/
theorem GetBackend_race_counterexample :
    (run [true, false, true, false] initState).constructions = 2
    ∧ ¬ ((run [true, false, true, false] initState).constructions ≤ 1) := by
  constructor
  · rfl
  · decide

/-- C7 (amended): even though two concurrent resolves that both miss
under the read lock each construct and store (no re-check under the
write lock), every construction stores the same default configuration,
so under every interleaving both callers end with configurations of
identical field values. -/
theorem GetBackend_race_identical (sched : List Bool) (c1 c2 : BackendConfiguration)
    (h1 : (run sched initState).t1 = TState.done c1)
    (h2 : (run sched initState).t2 = TState.done c2) :
    c1 = yahooDefaultCfg ∧ c2 = yahooDefaultCfg ∧ c1 = c2 := by
  have hinv := inv_run sched initState ⟨Or.inl rfl, trivial, trivial⟩
  obtain ⟨-, ht1, ht2⟩ := hinv
  rw [h1] at ht1
  rw [h2] at ht2
  exact ⟨ht1, ht2, ht1.trans ht2.symm⟩

/-- C7 witness: the duplicated-construction schedule still hands both
threads the default configuration. -/
theorem GetBackend_race_identical_witness :
    (run [true, false, true, false] initState).t1 = TState.done yahooDefaultCfg
    ∧ (yahooDefaultCfg = yahooDefaultCfg ∧ yahooDefaultCfg = yahooDefaultCfg
        ∧ yahooDefaultCfg = yahooDefaultCfg) :=
  ⟨rfl, GetBackend_race_identical [true, false, true, false] yahooDefaultCfg
    yahooDefaultCfg rfl rfl⟩

/-- C8: an identifier other than yahoo and bats makes GetBackend
return none and leave the registry untouched. -/
theorem GetBackend_unrecognized (b : SupportedBackend) (st : Backends)
    (h1 : b ≠ YFinBackend) (h2 : b ≠ BATSBackend) :
    GetBackend b st = (none, st) := by
  simp [GetBackend, h1, h2]

/-- C8 witness: the identifier iex is not recognized. -/
theorem GetBackend_unrecognized_witness :
    GetBackend "iex" { YFin := none, Bats := none }
      = (none, { YFin := none, Bats := none }) :=
  GetBackend_unrecognized "iex" { YFin := none, Bats := none } (by decide) (by decide)

/-- C2: for an executed request Do yields a RemoteError exactly for a
fully read response with status at least 400, carrying that status and
the raw body, with the destination untouched and the decoder never
consulted; a transport failure and a decoder failure come back as their
own non-remote error types. -/
theorem Do_remote_error_classification {α : Type}
    (s : BackendConfiguration) (y : String) (s1 s2 : StepOutcome)
    (h : HTTPOutcome) (u : String → Except String α) (req : Request) (v : Option α)
    (hexec : s.type = YFinBackend → ∃ c, crumbFetch y s1 s2 = Except.ok c) :
    ((∃ m sc b, (s.Do y s1 s2 h u req v).err = some (GoError.remote m sc b))
        ↔ ∃ st body, h = HTTPOutcome.success st body ∧ 400 ≤ st)
    ∧ (∀ st body, h = HTTPOutcome.success st body → 400 ≤ st →
        (s.Do y s1 s2 h u req v).err
            = some (GoError.remote "error response recieved from upstream api" st body)
        ∧ (s.Do y s1 s2 h u req v).dest = v
        ∧ ∀ u2 : String → Except String α,
            (s.Do y s1 s2 h u2 req v).err = (s.Do y s1 s2 h u req v).err
            ∧ (s.Do y s1 s2 h u2 req v).dest = (s.Do y s1 s2 h u req v).dest)
    ∧ (∀ m, h = HTTPOutcome.transportErr m →
        (s.Do y s1 s2 h u req v).err = some (GoError.transport m)
        ∧ (GoError.transport m).isRemote = false)
    ∧ (∀ st body m a0, h = HTTPOutcome.success st body → st < 400 →
        u body = Except.error m → v = some a0 →
        (s.Do y s1 s2 h u req v).err = some (GoError.decode m)
        ∧ (GoError.decode m).isRemote = false) := by
  obtain ⟨c, q, hD⟩ := Do_eq_execRequest s y s1 s2 h req v hexec
  simp only [hD]
  refine ⟨?_, ?_, ?_, ?_⟩
  · constructor
    · rintro ⟨m, sc, b, hmb⟩
      cases h with
      | transportErr m2 => simp [execRequest] at hmb
      | bodyReadErr st m2 => simp [execRequest] at hmb
      | success st body =>
        refine ⟨st, body, rfl, ?_⟩
        by_cases hst : (400 : Int) ≤ st
        · exact hst
        · exfalso
          cases v with
          | none => simp [execRequest, hst] at hmb
          | some a =>
            cases hub : u body with
            | error m3 => simp [execRequest, hst, hub] at hmb
            | ok x => simp [execRequest, hst, hub] at hmb
    · rintro ⟨st, body, hh, hst⟩
      subst hh
      exact ⟨"error response recieved from upstream api", st, body,
        by simp [execRequest, hst]⟩
  · intro st body hh hst
    subst hh
    refine ⟨by simp [execRequest, hst], by simp [execRequest, hst], ?_⟩
    intro u2
    constructor <;> simp [execRequest, hst]
  · intro m hh
    subst hh
    exact ⟨rfl, rfl⟩
  · intro st body m a0 hh hst hu hv
    subst hh
    subst hv
    constructor
    · simp [execRequest, not_le.mpr hst, hu]
    · rfl

/-- C2 witness: a 404 with body not found yields exactly the remote
error carrying them, and leaves the destination as it was. -/
theorem Do_remote_error_classification_witness :
    (batsDefaultCfg.Do "" (StepOutcome.response 200 "") (StepOutcome.response 200 "")
        (HTTPOutcome.success 404 "not found") unmarshalNat req0 (some 0)).err
      = some (GoError.remote "error response recieved from upstream api" 404 "not found")
    ∧ (batsDefaultCfg.Do "" (StepOutcome.response 200 "") (StepOutcome.response 200 "")
        (HTTPOutcome.success 404 "not found") unmarshalNat req0 (some 0)).dest = some 0 := by
  have h := Do_remote_error_classification batsDefaultCfg ""
      (StepOutcome.response 200 "") (StepOutcome.response 200 "")
      (HTTPOutcome.success 404 "not found") unmarshalNat req0 (some 0)
      (fun ht => absurd ht (by decide))
  exact ⟨(h.2.1 404 "not found" rfl (by decide)).1,
    (h.2.1 404 "not found" rfl (by decide)).2.1⟩

/-- C3: with the yahoo backend and an empty cache, Do runs the
handshake before the request: a failing handshake aborts the call with
the wrapping get-yahoo-crumb error, leaves the cache empty and the
destination untouched, and executes no request (the request outcome and
decoder are irrelevant); only a successful handshake writes the
cache. -/
theorem Do_empty_cache_handshake {α : Type} (s : BackendConfiguration)
    (s1 s2 : StepOutcome) (h : HTTPOutcome) (u : String → Except String α)
    (req : Request) (v : Option α) (htype : s.type = YFinBackend) :
    (∀ e, getYahooCrumb s1 s2 = Except.error e →
        (s.Do "" s1 s2 h u req v).err = some (GoError.wrapped "get yahoo crumb err" e)
        ∧ (s.Do "" s1 s2 h u req v).yCrumb = ""
        ∧ (s.Do "" s1 s2 h u req v).dest = v
        ∧ ∀ (h2 : HTTPOutcome) (u2 : String → Except String α),
            s.Do "" s1 s2 h2 u2 req v = s.Do "" s1 s2 h u req v)
    ∧ (∀ c, getYahooCrumb s1 s2 = Except.ok c →
        (s.Do "" s1 s2 h u req v).yCrumb = c) := by
  constructor
  · intro e he
    have hcf : crumbFetch "" s1 s2 = Except.error e := by simp [crumbFetch, he]
    refine ⟨?_, ?_, ?_, ?_⟩
    · simp [BackendConfiguration.Do, htype, hcf]
    · simp [BackendConfiguration.Do, htype, hcf]
    · simp [BackendConfiguration.Do, htype, hcf]
    · intro h2 u2
      simp [BackendConfiguration.Do, htype, hcf]
  · intro c hc
    have hcf : crumbFetch "" s1 s2 = Except.ok c := by simp [crumbFetch, hc]
    simp [BackendConfiguration.Do, htype, hcf, execRequest_yCrumb]

/-- C3 witness: a transport failure on the first handshake GET gives
the wrapped error and keeps the cache empty. -/
theorem Do_empty_cache_handshake_witness :
    (yahooDefaultCfg.Do "" (StepOutcome.transportErr "dial tcp refused")
        (StepOutcome.response 200 "EuOTWz3") (HTTPOutcome.success 200 "[1]")
        unmarshalNat req0 (some 0)).err
      = some (GoError.wrapped "get yahoo crumb err" (GoError.transport "dial tcp refused"))
    ∧ (yahooDefaultCfg.Do "" (StepOutcome.transportErr "dial tcp refused")
        (StepOutcome.response 200 "EuOTWz3") (HTTPOutcome.success 200 "[1]")
        unmarshalNat req0 (some 0)).yCrumb = "" := by
  have h := Do_empty_cache_handshake yahooDefaultCfg
      (StepOutcome.transportErr "dial tcp refused") (StepOutcome.response 200 "EuOTWz3")
      (HTTPOutcome.success 200 "[1]") unmarshalNat req0 (some 0) rfl
  exact ⟨(h.1 (GoError.transport "dial tcp refused") rfl).1,
    (h.1 (GoError.transport "dial tcp refused") rfl).2.1⟩

/-- C4: once the cache is non-empty Do never invokes the handshake
again (the handshake transports are irrelevant to the outcome), reuses
the cached token verbatim as the injected crumb parameter, and keeps
the cache exactly as it was. -/
theorem Do_cached_token_reused {α : Type} (s : BackendConfiguration) (y : String)
    (s1 s2 : StepOutcome) (h : HTTPOutcome) (u : String → Except String α)
    (req : Request) (v : Option α) (hy : y ≠ "") :
    (∀ s1n s2n : StepOutcome, s.Do y s1n s2n h u req v = s.Do y s1 s2 h u req v)
    ∧ (s.Do y s1 s2 h u req v).yCrumb = y
    ∧ (s.type = YFinBackend →
        (s.Do y s1 s2 h u req v).finalQuery
          = encodeQuery (req.query ++ [("crumb", y)])) := by
  have hcf : ∀ a b : StepOutcome, crumbFetch y a b = Except.ok y := by
    intro a b
    simp [crumbFetch, hy]
  refine ⟨?_, ?_, ?_⟩
  · intro s1n s2n
    by_cases hs : s.type = YFinBackend <;> simp [BackendConfiguration.Do, hs, hcf]
  · by_cases hs : s.type = YFinBackend <;>
      simp [BackendConfiguration.Do, hs, hcf, execRequest_yCrumb]
  · intro hs
    simp [BackendConfiguration.Do, hs, hcf, execRequest_finalQuery]

/-- C4 witness: with a cached token the handshake transport does not
matter and the cache keeps its value. -/
theorem Do_cached_token_reused_witness :
    yahooDefaultCfg.Do "EuOTWz3" (StepOutcome.transportErr "handshake down")
        (StepOutcome.transportErr "handshake down") (HTTPOutcome.success 200 "[1]")
        unmarshalNat req0 (some 0)
      = yahooDefaultCfg.Do "EuOTWz3" (StepOutcome.response 200 "cookies")
        (StepOutcome.response 200 "fresh") (HTTPOutcome.success 200 "[1]")
        unmarshalNat req0 (some 0)
    ∧ (yahooDefaultCfg.Do "EuOTWz3" (StepOutcome.response 200 "cookies")
        (StepOutcome.response 200 "fresh") (HTTPOutcome.success 200 "[1]")
        unmarshalNat req0 (some 0)).yCrumb = "EuOTWz3" := by
  have h := Do_cached_token_reused yahooDefaultCfg "EuOTWz3"
      (StepOutcome.response 200 "cookies") (StepOutcome.response 200 "fresh")
      (HTTPOutcome.success 200 "[1]") unmarshalNat req0 (some 0) (by decide)
  exact ⟨h.1 (StepOutcome.transportErr "handshake down")
    (StepOutcome.transportErr "handshake down"), h.2.1⟩

/-- C6: on a status below 400 with a destination supplied, Do feeds the
body to the decoder: a decoder failure comes back as that decode error,
and a successful decode yields no error with the decoded value stored
in the destination. -/
theorem Do_decode_into_destination {α : Type} (s : BackendConfiguration) (y : String)
    (s1 s2 : StepOutcome) (st : Int) (body : String)
    (u : String → Except String α) (req : Request) (a0 : α)
    (hexec : s.type = YFinBackend → ∃ c, crumbFetch y s1 s2 = Except.ok c)
    (hst : st < 400) :
    (∀ m, u body = Except.error m →
        (s.Do y s1 s2 (HTTPOutcome.success st body) u req (some a0)).err
            = some (GoError.decode m)
        ∧ (s.Do y s1 s2 (HTTPOutcome.success st body) u req (some a0)).dest = some a0)
    ∧ (∀ x, u body = Except.ok x →
        (s.Do y s1 s2 (HTTPOutcome.success st body) u req (some a0)).err = none
        ∧ (s.Do y s1 s2 (HTTPOutcome.success st body) u req (some a0)).dest = some x) := by
  obtain ⟨c, q, hD⟩ := Do_eq_execRequest s y s1 s2 (HTTPOutcome.success st body)
      req (some a0) hexec
  constructor
  · intro m hm
    rw [hD u]
    constructor <;> simp [execRequest, not_le.mpr hst, hm]
  · intro x hx
    rw [hD u]
    constructor <;> simp [execRequest, not_le.mpr hst, hx]

/-- C6 witness: a 200 whose body decodes cleanly stores the decoded
value and returns no error. -/
theorem Do_decode_into_destination_witness :
    (batsDefaultCfg.Do "" (StepOutcome.response 200 "") (StepOutcome.response 200 "")
        (HTTPOutcome.success 200 "[1]") unmarshalNat req0 (some 0)).err = none
    ∧ (batsDefaultCfg.Do "" (StepOutcome.response 200 "") (StepOutcome.response 200 "")
        (HTTPOutcome.success 200 "[1]") unmarshalNat req0 (some 0)).dest = some 1 := by
  have h := Do_decode_into_destination batsDefaultCfg ""
      (StepOutcome.response 200 "") (StepOutcome.response 200 "") 200 "[1]"
      unmarshalNat req0 0 (fun ht => absurd ht (by decide)) (by decide)
  exact h.2 1 (by simp [unmarshalNat])

/-- C9: injecting the cached crumb keeps every original query pair: as
multisets of key/value pairs, the rewritten (canonically re-encoded)
query is exactly the original plus the single crumb pair. -/
theorem Do_query_pairs_preserved {α : Type} (s : BackendConfiguration) (y : String)
    (s1 s2 : StepOutcome) (h : HTTPOutcome) (u : String → Except String α)
    (req : Request) (v : Option α) (hy : y ≠ "") (htype : s.type = YFinBackend) :
    ((s.Do y s1 s2 h u req v).finalQuery : Multiset (String × String))
      = (req.query : Multiset (String × String)) + {("crumb", y)} := by
  have hcf : crumbFetch y s1 s2 = Except.ok y := by simp [crumbFetch, hy]
  have hq : (s.Do y s1 s2 h u req v).finalQuery
      = encodeQuery (req.query ++ [("crumb", y)]) := by
    simp [BackendConfiguration.Do, htype, hcf, execRequest_finalQuery]
  rw [hq, encodeQuery_coe]
  rfl

/-- C9 witness: the symbols parameter survives the crumb injection on a
concrete request. -/
theorem Do_query_pairs_preserved_witness :
    ((yahooDefaultCfg.Do "EuOTWz3" (StepOutcome.response 200 "")
        (StepOutcome.response 200 "") (HTTPOutcome.success 200 "[1]")
        unmarshalNat req0 (some 0)).finalQuery : Multiset (String × String))
      = (req0.query : Multiset (String × String)) + {("crumb", "EuOTWz3")} :=
  Do_query_pairs_preserved yahooDefaultCfg "EuOTWz3" (StepOutcome.response 200 "")
    (StepOutcome.response 200 "") (HTTPOutcome.success 200 "[1]")
    unmarshalNat req0 (some 0) (by decide) rfl

/-- C10: RemoteError.Error renders exactly the string built from the
words status and detail with the StatusCode and Msg fields, and the
Body field never influences the message. -/
theorem RemoteError_Error_format (e : RemoteError) :
    RemoteError.Error e = "status: " ++ toString e.StatusCode ++ ", detail: " ++ e.Msg
    ∧ ∀ b : String, RemoteError.Error { e with Body := b } = RemoteError.Error e := by
  constructor
  · rfl
  · intro b
    rfl

end FinanceGo
